import Mathlib

/-! DeclarativeWidgets: object adaptors (`src/lib/objectadaptors.cpp`).

A shallow embedding of the adaptor classes of `objectadaptors.cpp` and theorems about them.

Conventions of the embedding:

* A `QObject*` is an `Option ObjId`; `none` is the null pointer.
* The run-time type tests (`qobject_cast`, `dynamic_cast`) and the accessors of classes declared
  outside `objectadaptors.cpp` are read from a `Heap`.
* Every method takes the receiver's state and returns the new state together with the signals it
  emitted, in emission order.
* The native toolkit classes (`QWidget`, `QButtonGroup`, `QAbstractItemView`, `QTextEdit`,
  `QDeclarativeContext`) are records; their operations are written next to the adaptor that
  calls them. Where a native operation calls back into a virtual method that an adaptor
  overrides, the override is a parameter of the native operation and its signals are kept.
-/

namespace DeclarativeWidgets

/-- Identity of a heap object. -/
abbrev ObjId := Nat

/-- The `QVariant` values the adaptors distinguish: the default-constructed (invalid) variant, a
typed null variant, a non-object payload, and a `QObject*` payload (the pointer may be null). -/
inductive QVariant where
  | invalid
  | null (typeId : Nat)
  | data (typeId : Nat) (payload : Nat)
  | object (p : Option ObjId)
  deriving DecidableEq

/-- Model of `QVariant::value<QObject*>()`: the object pointer held, null for any other payload. -/
def QVariant.valueQObject : QVariant → Option ObjId
  | .object p => p
  | _ => none

/-- Model of `QVariant::isValid()`. -/
def QVariant.isValid : QVariant → Bool
  | .invalid => false
  | _ => true

/-- Model of `QVariant::isNull()`. -/
def QVariant.isNull : QVariant → Bool
  | .invalid => true
  | .null _ => true
  | .data _ _ => false
  | .object p => p.isNone

/-- What the casts and foreign accessors used in `objectadaptors.cpp` answer for each object. -/
structure Heap where
  /-- Whether `qobject_cast<QAction*>` succeeds. -/
  isQAction : ObjId → Bool
  /-- Whether `dynamic_cast<DeclarativeAction*>` succeeds. -/
  isDeclarativeAction : ObjId → Bool
  /-- Whether `dynamic_cast<AbstractDeclarativeObject*>` succeeds. -/
  isAbstractDeclarativeObject : ObjId → Bool
  /-- Whether `qobject_cast<QAbstractButton*>` succeeds. -/
  isQAbstractButton : ObjId → Bool
  /-- Whether `dynamic_cast<DeclarativeContext*>` succeeds. -/
  isDeclarativeContext : ObjId → Bool
  /-- Result of `AbstractDeclarativeObject::object()` on a wrapper object. -/
  object : ObjId → Option ObjId
  /-- Result of `DeclarativeContext::context()` on a context wrapper. -/
  context : ObjId → Option ObjId
  /-- Result of `metaObject()->className()`. -/
  className : ObjId → String

/-- Model of `qobject_cast<QAction*>(p)`. -/
def Heap.castQAction (h : Heap) : Option ObjId → Option ObjId
  | some o => if h.isQAction o then some o else none
  | none => none

/-- Model of `dynamic_cast<DeclarativeAction*>(p)`. -/
def Heap.castDeclarativeAction (h : Heap) : Option ObjId → Option ObjId
  | some o => if h.isDeclarativeAction o then some o else none
  | none => none

/-- Model of `dynamic_cast<AbstractDeclarativeObject*>(p)`. -/
def Heap.castAbstractDeclarativeObject (h : Heap) : Option ObjId → Option ObjId
  | some o => if h.isAbstractDeclarativeObject o then some o else none
  | none => none

/-- Model of `qobject_cast<QAbstractButton*>(p)`. -/
def Heap.castQAbstractButton (h : Heap) : Option ObjId → Option ObjId
  | some o => if h.isQAbstractButton o then some o else none
  | none => none

/-- Model of `dynamic_cast<DeclarativeContext*>(p)`. -/
def Heap.castDeclarativeContext (h : Heap) : Option ObjId → Option ObjId
  | some o => if h.isDeclarativeContext o then some o else none
  | none => none

/-- Ways a call can end fatally: a null pointer is dereferenced, or a `Q_ASSERT` fails. -/
inductive Fault where
  | nullDereference
  | assertionFailed
  deriving DecidableEq

/-- Dereference of a pointer (`p->...`). -/
def deref {α : Type} : Option α → Except Fault α
  | some a => .ok a
  | none => .error .nullDereference

/-! ## ActionItem -/

/-- A native widget, reduced to its list of actions (`QWidget::actions()`). -/
structure QWidget where
  actions : List ObjId
  deriving DecidableEq

/-- Position search of `QWidget::insertAction`: put `a` right before the first `before`, at the
end when `before` does not occur. -/
def insertBefore (before : Option ObjId) (a : ObjId) : List ObjId → List ObjId
  | [] => [a]
  | x :: xs => if some x = before then a :: x :: xs else x :: insertBefore before a xs

/-- Model of `QWidget::removeAction`: a null action is ignored, otherwise every occurrence is
dropped. -/
def QWidget.removeAction (w : QWidget) : Option ObjId → QWidget
  | none => w
  | some a => { actions := w.actions.filter (fun x => x ≠ a) }

/-- Model of `QWidget::insertAction(before, action)`: a null action is refused; an action the
widget already has is removed first; the action then goes before `before`, or to the end when
`before` is null or not an action of the widget. -/
def QWidget.insertAction (w : QWidget) (before : Option ObjId) : Option ObjId → QWidget
  | none => w
  | some a =>
    let w1 := if a ∈ w.actions then w.removeAction (some a) else w
    { actions := insertBefore before a w1.actions }

/-- Fields of `ActionItem`. -/
structure ActionItem where
  m_placeholderAction : ObjId
  m_qAction : Option ObjId
  m_action : QVariant
  deriving DecidableEq

/-- Signals of `ActionItem`. -/
inductive ActionSignal where
  | actionChanged
  deriving DecidableEq

/-- Model of `ActionItem::ActionItem`: `placeholder` is the freshly created `QAction`. -/
def ActionItem.new (placeholder : ObjId) : ActionItem :=
  { m_placeholderAction := placeholder, m_qAction := some placeholder, m_action := .invalid }

/-- Model of `ActionItem::action()`. -/
def ActionItem.action (self : ActionItem) : Option ObjId := self.m_qAction

/-- Model of `ActionItem::qmlAction()`. -/
def ActionItem.qmlAction (self : ActionItem) : QVariant := self.m_action

/-- Lines 48-57 of `ActionItem::setAction`: the action a variant resolves to. -/
def resolveAction (h : Heap) (action : QVariant) : Option ObjId :=
  let object := action.valueQObject
  let newAction := h.castQAction object
  match h.castDeclarativeAction object with
  | some declarativeAction => h.castQAction (h.object declarativeAction)
  | none => newAction

/-- Body of the `foreach` of `ActionItem::setAction` for one widget. -/
def replacePlaceholder (placeholder : ObjId) (newAction : Option ObjId) (widget : QWidget) :
    QWidget :=
  (widget.insertAction (some placeholder) newAction).removeAction (some placeholder)

/-- Membership test behind `QAction::associatedWidgets()`: the widget has the action in its
list. -/
def QWidget.hasAction (w : QWidget) (a : ObjId) : Bool := decide (a ∈ w.actions)

/-- Outcome of `ActionItem::setAction`. -/
structure ActionResult where
  item : ActionItem
  widgets : List QWidget
  emitted : List ActionSignal
  deriving DecidableEq

/-- Model of `ActionItem::setAction`. The list `widgets` holds the widgets of the application; the
loop visits those associated with the placeholder. -/
def ActionItem.setAction (h : Heap) (self : ActionItem) (widgets : List QWidget)
    (action : QVariant) : ActionResult :=
  if self.m_action = action then
    { item := self, widgets := widgets, emitted := [] }
  else
    let self1 := { self with m_action := action }
    let newAction := resolveAction h self1.m_action
    if self1.m_qAction = some self1.m_placeholderAction then
      let widgets1 := widgets.map (fun widget =>
        if widget.hasAction self1.m_placeholderAction then
          replacePlaceholder self1.m_placeholderAction newAction widget
        else widget)
      { item := { self1 with m_qAction := newAction }, widgets := widgets1,
        emitted := [.actionChanged] }
    else
      { item := self1, widgets := widgets, emitted := [.actionChanged] }

/-- A sequence of `setAction` calls, threading item and widgets and collecting the signals. -/
def ActionItem.setActions (h : Heap) (self : ActionItem) (widgets : List QWidget) :
    List QVariant → ActionResult
  | [] => { item := self, widgets := widgets, emitted := [] }
  | v :: vs =>
    let r := self.setAction h widgets v
    let r2 := ActionItem.setActions h r.item r.widgets vs
    { r2 with emitted := r.emitted ++ r2.emitted }

/-- Number of calls of a sequence whose value differs from the value stored at that moment. -/
def differingCalls (stored : QVariant) : List QVariant → Nat
  | [] => 0
  | v :: vs => (if stored = v then 0 else 1) + differingCalls v vs

/-- A heap in which objects 5, 6 and 1 are `QAction`s and 7 is a `DeclarativeAction` wrapping 6. -/
def actionHeap : Heap :=
  { isQAction := fun o => o = 1 || o = 5 || o = 6
    isDeclarativeAction := fun o => o = 7
    isAbstractDeclarativeObject := fun o => o = 7
    isQAbstractButton := fun _ => false
    isDeclarativeContext := fun _ => false
    object := fun o => if o = 7 then some 6 else none
    context := fun _ => none
    className := fun _ => "QObject" }

/-! ## ButtonGroup -/

/-- Fields of `ButtonGroup`: the membership of the native `QButtonGroup` it derives from
(`QButtonGroup::buttons()`) and the stored variant list. -/
structure ButtonGroup where
  buttonList : List ObjId
  m_buttons : List QVariant
  deriving DecidableEq

/-- Signals of `ButtonGroup`. -/
inductive ButtonSignal where
  | buttonsChanged
  deriving DecidableEq

/-- Model of `QButtonGroup::removeButton`: the button leaves the group. -/
def QButtonGroup.removeButton (buttonList : List ObjId) (button : ObjId) : List ObjId :=
  buttonList.filter (fun b => b ≠ button)

/-- Model of `QButtonGroup::addButton`: the button leaves the group it was in and is appended. -/
def QButtonGroup.addButton (buttonList : List ObjId) (button : ObjId) : List ObjId :=
  QButtonGroup.removeButton buttonList button ++ [button]

/-- Resolution of one entry in the loops of `ButtonGroup::setButtons`: the entry must hold a
non-null object that is an `AbstractDeclarativeObject` whose wrapped object is a button. -/
def resolveButton (h : Heap) (variant : QVariant) : Option ObjId :=
  match variant.valueQObject with
  | none => none
  | some object =>
    match h.castAbstractDeclarativeObject (some object) with
    | none => none
    | some declarativeObject => h.castQAbstractButton (h.object declarativeObject)

/-- Model of `ButtonGroup::buttons()`. -/
def ButtonGroup.buttons (self : ButtonGroup) : List QVariant := self.m_buttons

/-- Model of `ButtonGroup::setButtons`. -/
def ButtonGroup.setButtons (h : Heap) (self : ButtonGroup) (buttons : List QVariant) :
    ButtonGroup × List ButtonSignal :=
  if self.m_buttons = buttons then (self, [])
  else
    let removed := self.m_buttons.foldl (fun group variant =>
      match resolveButton h variant with
      | some button => QButtonGroup.removeButton group button
      | none => group) self.buttonList
    let added := buttons.foldl (fun group variant =>
      match resolveButton h variant with
      | some button => QButtonGroup.addButton group button
      | none => group) removed
    ({ buttonList := added, m_buttons := buttons }, [.buttonsChanged])

/-- The buttons the entries of a variant list resolve to, in list order. -/
def resolvedButtons (h : Heap) (buttons : List QVariant) : List ObjId :=
  buttons.filterMap (resolveButton h)

/-- A heap in which objects 11, 12, 13 are button wrappers around the buttons 1, 2, 3, object 14
is a wrapper around the non-button 4, and object 3 is a bare button. -/
def buttonHeap : Heap :=
  { isQAction := fun _ => false
    isDeclarativeAction := fun _ => false
    isAbstractDeclarativeObject := fun o => o = 11 || o = 12 || o = 13 || o = 14
    isQAbstractButton := fun o => o = 1 || o = 2 || o = 3
    isDeclarativeContext := fun _ => false
    object := fun o => if 11 ≤ o ∧ o ≤ 14 then some (o - 10) else none
    context := fun _ => none
    className := fun _ => "QObject" }

/-! ## ColumnView, ListView, TableView, TreeView -/

/-- The model a view presents internally, or a selection model works on: a null pointer, the
toolkit's static empty model (what a view presents when it was given no model), or a model. -/
inductive ModelRef where
  | null
  | staticEmpty
  | model (id : ObjId)
  deriving DecidableEq

/-- A `QItemSelectionModel` object: its identity and the model it was constructed on
(`QItemSelectionModel::model()`). -/
structure QItemSelectionModel where
  id : ObjId
  model : ModelRef
  deriving DecidableEq

/-- State of a native item view: `model()` (null while the view presents the static empty model)
and `selectionModel()`. -/
structure QAbstractItemView where
  model : Option ObjId
  selectionModel : Option QItemSelectionModel
  deriving DecidableEq

/-- The model a view holds internally once it was given `model`: the static empty model for a
null pointer. -/
def ModelRef.presented : Option ObjId → ModelRef
  | none => .staticEmpty
  | some m => .model m

/-- The model pointer the native view holds internally (`d->model`), never null. -/
def QAbstractItemView.internalModel (view : QAbstractItemView) : ModelRef :=
  ModelRef.presented view.model

/-- Signals of the four view adaptors. -/
inductive ViewSignal where
  | modelChanged (model : Option ObjId)
  | selectionModelChanged (selectionModel : Option QItemSelectionModel)
  deriving DecidableEq

/-- Model of the native set-selection-model operation (`QAbstractItemView::setSelectionModel`,
reached by `QColumnView`, `QListView`, `QTableView` and `QTreeView` alike). A null argument
fails `Q_ASSERT(selectionModel)` when assertions are compiled in and is dereferenced otherwise.
A selection model that works on another model than the view's is refused (the toolkit only
prints a warning) and the view keeps its selection model; otherwise the argument is installed. -/
def QAbstractItemView.setSelectionModel (assertions : Bool) (view : QAbstractItemView)
    (selectionModel : Option QItemSelectionModel) : Except Fault QAbstractItemView :=
  if assertions && selectionModel.isNone then
    .error Fault.assertionFailed
  else do
    let sel ← deref selectionModel
    if sel.model ≠ view.internalModel then
      .ok view
    else
      .ok { view with selectionModel := some sel }

/-- Model of the native set-model operation (`QAbstractItemView::setModel`, reached by
`QColumnView`, `QListView`, `QTableView` and `QTreeView` alike): nothing happens when the view
already holds `model`; otherwise the view presents `model` (the static empty model for a null
argument), creates the selection model `fresh` on it and installs it by calling the virtual
`setSelectionModel`. The parameter `setSelectionModel` is the override that call dispatches to;
the signals that override emits are returned. -/
def QAbstractItemView.setModel (fresh : ObjId)
    (setSelectionModel : QAbstractItemView → Option QItemSelectionModel →
      Except Fault (QAbstractItemView × List ViewSignal))
    (view : QAbstractItemView) (model : Option ObjId) :
    Except Fault (QAbstractItemView × List ViewSignal) :=
  if model.isSome && view.model = model then
    .ok (view, [])
  else
    let view1 : QAbstractItemView := { view with model := model }
    setSelectionModel view1 (some { id := fresh, model := view1.internalModel })

/-- State of `ColumnView`, a `QColumnView`. -/
abbrev ColumnView := QAbstractItemView

/-- State of `ListView`, a `QListView`. -/
abbrev ListView := QAbstractItemView

/-- State of `TableView`, a `QTableView`. -/
abbrev TableView := QAbstractItemView

/-- State of `TreeView`, a `QTreeView`. -/
abbrev TreeView := QAbstractItemView

/-- Model of `ColumnView::setSelectionModel`, which overrides the virtual
`QAbstractItemView::setSelectionModel`. -/
def ColumnView.setSelectionModel (assertions : Bool) (self : ColumnView)
    (selectionModel : Option QItemSelectionModel) : Except Fault (ColumnView × List ViewSignal) :=
  if self.selectionModel = selectionModel then .ok (self, [])
  else do
    let self1 ← QAbstractItemView.setSelectionModel assertions self selectionModel
    .ok (self1, [ViewSignal.selectionModelChanged selectionModel])

/-- Model of `ColumnView::setModel`. The signals are listed in emission order: first those raised
while the native call runs, then the two the body emits. -/
def ColumnView.setModel (assertions : Bool) (fresh : ObjId) (self : ColumnView)
    (model : Option ObjId) : Except Fault (ColumnView × List ViewSignal) :=
  if self.model = model then .ok (self, [])
  else do
    let r ← QAbstractItemView.setModel fresh (ColumnView.setSelectionModel assertions) self model
    .ok (r.1, r.2 ++ [ViewSignal.modelChanged model,
                      ViewSignal.selectionModelChanged r.1.selectionModel])

/-- Model of `ListView::setSelectionModel`, which overrides the virtual
`QAbstractItemView::setSelectionModel`. -/
def ListView.setSelectionModel (assertions : Bool) (self : ListView)
    (selectionModel : Option QItemSelectionModel) : Except Fault (ListView × List ViewSignal) :=
  if self.selectionModel = selectionModel then .ok (self, [])
  else do
    let self1 ← QAbstractItemView.setSelectionModel assertions self selectionModel
    .ok (self1, [ViewSignal.selectionModelChanged selectionModel])

/-- Model of `ListView::setModel`. The signals are listed in emission order: first those raised
while the native call runs, then the two the body emits. -/
def ListView.setModel (assertions : Bool) (fresh : ObjId) (self : ListView)
    (model : Option ObjId) : Except Fault (ListView × List ViewSignal) :=
  if self.model = model then .ok (self, [])
  else do
    let r ← QAbstractItemView.setModel fresh (ListView.setSelectionModel assertions) self model
    .ok (r.1, r.2 ++ [ViewSignal.modelChanged model,
                      ViewSignal.selectionModelChanged r.1.selectionModel])

/-- Model of `TableView::setSelectionModel`, which overrides the virtual
`QAbstractItemView::setSelectionModel`. -/
def TableView.setSelectionModel (assertions : Bool) (self : TableView)
    (selectionModel : Option QItemSelectionModel) : Except Fault (TableView × List ViewSignal) :=
  if self.selectionModel = selectionModel then .ok (self, [])
  else do
    let self1 ← QAbstractItemView.setSelectionModel assertions self selectionModel
    .ok (self1, [ViewSignal.selectionModelChanged selectionModel])

/-- Model of `TableView::setModel`. The signals are listed in emission order: first those raised
while the native call runs, then the two the body emits. -/
def TableView.setModel (assertions : Bool) (fresh : ObjId) (self : TableView)
    (model : Option ObjId) : Except Fault (TableView × List ViewSignal) :=
  if self.model = model then .ok (self, [])
  else do
    let r ← QAbstractItemView.setModel fresh (TableView.setSelectionModel assertions) self model
    .ok (r.1, r.2 ++ [ViewSignal.modelChanged model,
                      ViewSignal.selectionModelChanged r.1.selectionModel])

/-- Model of `TreeView::setSelectionModel`, which overrides the virtual
`QAbstractItemView::setSelectionModel`. -/
def TreeView.setSelectionModel (assertions : Bool) (self : TreeView)
    (selectionModel : Option QItemSelectionModel) : Except Fault (TreeView × List ViewSignal) :=
  if self.selectionModel = selectionModel then .ok (self, [])
  else do
    let self1 ← QAbstractItemView.setSelectionModel assertions self selectionModel
    .ok (self1, [ViewSignal.selectionModelChanged selectionModel])

/-- Model of `TreeView::setModel`. The signals are listed in emission order: first those raised
while the native call runs, then the two the body emits. -/
def TreeView.setModel (assertions : Bool) (fresh : ObjId) (self : TreeView)
    (model : Option ObjId) : Except Fault (TreeView × List ViewSignal) :=
  if self.model = model then .ok (self, [])
  else do
    let r ← QAbstractItemView.setModel fresh (TreeView.setSelectionModel assertions) self model
    .ok (r.1, r.2 ++ [ViewSignal.modelChanged model,
                      ViewSignal.selectionModelChanged r.1.selectionModel])

/-! ## DeclarativeContext -/

/-- Diagnostics written by the adaptors: the `qWarning` of the `DeclarativeContext` methods
(tagged with the method, `Q_FUNC_INFO`) and the `qmlInfo` of
`DeclarativeView::setDeclarativeRootContext` (tagged with the class name it prints). -/
inductive LogLine where
  | contextUnavailable (funcInfo : String)
  | cannotSetRootContext (className : String)
  deriving DecidableEq

/-- A `QUrl`, by its string; `QUrl()` is the empty string. -/
abbrev QUrl := String

/-- State of a native `QDeclarativeContext`: the URL set on it, the `setContextProperty` calls
it received, oldest first, and the base URL of its parent context (empty when it has no parent
or no ancestor has a base URL). -/
structure QDeclarativeContext where
  url : QUrl
  contextProperties : List (String × QVariant)
  parentBaseUrl : QUrl
  deriving DecidableEq

/-- Model of `QDeclarativeContext::baseUrl`: the URL set on the context, or the base URL of the
containing context when none is set. -/
def QDeclarativeContext.baseUrl (c : QDeclarativeContext) : QUrl :=
  if c.url = "" then c.parentBaseUrl else c.url

/-- Model of `QDeclarativeContext::setBaseUrl`. -/
def QDeclarativeContext.setBaseUrl (c : QDeclarativeContext) (url : QUrl) :
    QDeclarativeContext :=
  { c with url := url }

/-- Model of `QDeclarativeContext::setContextProperty`. -/
def QDeclarativeContext.setContextProperty (c : QDeclarativeContext) (name : String)
    (value : QVariant) : QDeclarativeContext :=
  { c with contextProperties := c.contextProperties ++ [(name, value)] }

/-- Fields of `DeclarativeContext`: the weak reference `QPointer<QDeclarativeContext>`, `none`
when it is null (the wrapped context was destroyed). -/
structure DeclarativeContext where
  m_context : Option QDeclarativeContext
  deriving DecidableEq

/-- Signals of `DeclarativeContext`. -/
inductive ContextSignal where
  | baseUrlChanged (url : QUrl)
  deriving DecidableEq

/-- Outcome of a `DeclarativeContext` method: new state, signals, diagnostics, return value. -/
structure ContextResult (α : Type) where
  state : DeclarativeContext
  emitted : List ContextSignal
  log : List LogLine
  value : α
  deriving DecidableEq

/-- Model of `DeclarativeContext::setBaseUrl`. -/
def DeclarativeContext.setBaseUrl (self : DeclarativeContext) (url : QUrl) :
    Except Fault (ContextResult Unit) :=
  if self.m_context.isNone then
    .ok { state := self, emitted := [], log := [.contextUnavailable "setBaseUrl"], value := () }
  else do
    let context ← deref self.m_context
    if url = context.baseUrl then
      .ok { state := self, emitted := [], log := [], value := () }
    else
      .ok { state := { m_context := some (context.setBaseUrl url) },
            emitted := [.baseUrlChanged url], log := [], value := () }

/-- Model of `DeclarativeContext::baseUrl`. -/
def DeclarativeContext.baseUrl (self : DeclarativeContext) : Except Fault (ContextResult QUrl) :=
  if self.m_context.isNone then
    .ok { state := self, emitted := [], log := [.contextUnavailable "baseUrl"], value := "" }
  else do
    let context ← deref self.m_context
    .ok { state := self, emitted := [], log := [], value := context.baseUrl }

/-- Model of `DeclarativeContext::setContextProperty`. -/
def DeclarativeContext.setContextProperty (self : DeclarativeContext) (name : String)
    (value : QVariant) : Except Fault (ContextResult Unit) :=
  if self.m_context.isNone then
    .ok { state := self, emitted := [], log := [.contextUnavailable "setContextProperty"],
          value := () }
  else do
    let context ← deref self.m_context
    .ok { state := { m_context := some (context.setContextProperty name value) },
          emitted := [], log := [], value := () }

/-! ## DeclarativeContextProperty -/

/-- Fields of `DeclarativeContextProperty`; `m_context` is the weak reference
`QPointer<DeclarativeContext>`, `none` when null, else the state of the context wrapper. -/
structure DeclarativeContextProperty where
  m_name : String
  m_value : QVariant
  m_context : Option DeclarativeContext
  deriving DecidableEq

/-- Signals of `DeclarativeContextProperty`. -/
inductive PropertySignal where
  | nameChanged (name : String)
  | valueChanged (value : QVariant)
  deriving DecidableEq

/-- Outcome of a `DeclarativeContextProperty` method: new state (with the attached context
wrapper), signals, the `setContextProperty` calls made on the attached context wrapper, and the
diagnostics those calls wrote. -/
structure PropertyResult where
  state : DeclarativeContextProperty
  emitted : List PropertySignal
  calls : List (String × QVariant)
  log : List LogLine
  deriving DecidableEq

/-- Model of `DeclarativeContextProperty::name`. -/
def DeclarativeContextProperty.name (self : DeclarativeContextProperty) : String := self.m_name

/-- Model of `DeclarativeContextProperty::value`. -/
def DeclarativeContextProperty.value (self : DeclarativeContextProperty) : QVariant :=
  self.m_value

/-- Model of `DeclarativeContextProperty::isValid`. -/
def DeclarativeContextProperty.isValid (self : DeclarativeContextProperty) : Bool :=
  !self.m_name.isEmpty && self.m_value.isValid && !self.m_value.isNull

/-- Condition of the specification for a property to be pushed: a context is attached, the name
is non-empty, and the value is valid and not null. -/
def DeclarativeContextProperty.pushCondition (self : DeclarativeContextProperty) : Prop :=
  self.m_context.isSome = true ∧ self.m_name.isEmpty = false ∧
    self.m_value.isValid = true ∧ self.m_value.isNull = false

instance (self : DeclarativeContextProperty) : Decidable self.pushCondition := by
  unfold DeclarativeContextProperty.pushCondition
  exact inferInstance

/-- Model of `DeclarativeContextProperty::setOnContext`. -/
def DeclarativeContextProperty.setOnContext (self : DeclarativeContextProperty) :
    Except Fault PropertyResult :=
  if !self.isValid || self.m_context.isNone then
    .ok { state := self, emitted := [], calls := [], log := [] }
  else do
    let context ← deref self.m_context
    let r ← context.setContextProperty self.m_name self.m_value
    .ok { state := { self with m_context := some r.state }, emitted := [],
          calls := [(self.m_name, self.m_value)], log := r.log }

/-- Model of `DeclarativeContextProperty::setName`. -/
def DeclarativeContextProperty.setName (self : DeclarativeContextProperty) (name : String) :
    Except Fault PropertyResult :=
  if name = self.m_name then
    .ok { state := self, emitted := [], calls := [], log := [] }
  else do
    let self1 := { self with m_name := name }
    let r ← self1.setOnContext
    .ok { r with emitted := PropertySignal.nameChanged name :: r.emitted }

/-- Model of `DeclarativeContextProperty::setValue`. -/
def DeclarativeContextProperty.setValue (self : DeclarativeContextProperty) (value : QVariant) :
    Except Fault PropertyResult :=
  if value = self.m_value then
    .ok { state := self, emitted := [], calls := [], log := [] }
  else do
    let self1 := { self with m_value := value }
    let r ← self1.setOnContext
    .ok { r with emitted := PropertySignal.valueChanged value :: r.emitted }

/-- Model of `DeclarativeContextProperty::setContext`; a null `context` is `none`. -/
def DeclarativeContextProperty.setContext (self : DeclarativeContextProperty)
    (context : Option DeclarativeContext) : Except Fault PropertyResult :=
  let self1 := { self with m_context := context }
  self1.setOnContext

/-! ## DeclarativeView -/

/-- Fields of `DeclarativeView`: `m_rootContext` is what the weak reference
`QPointer<DeclarativeContext>` currently points to (`none` once that wrapper is destroyed). -/
structure DeclarativeView where
  m_rootContext : Option ObjId
  deriving DecidableEq

/-- Signals of `DeclarativeView`. -/
inductive RootSignal where
  | declarativeRootContextChanged
  deriving DecidableEq

/-- Outcome of `DeclarativeView::setDeclarativeRootContext`. -/
structure RootResult where
  state : DeclarativeView
  emitted : List RootSignal
  log : List LogLine
  deriving DecidableEq

/-- Model of `DeclarativeView::declarativeRootContext`. -/
def DeclarativeView.declarativeRootContext (self : DeclarativeView) : Option ObjId :=
  self.m_rootContext

/-- Lines 289-294 of `DeclarativeView::setDeclarativeRootContext`: the context wrapper the
argument resolves to, either the argument itself or the object it wraps. -/
def resolveRootContext (h : Heap) (context : Option ObjId) : Option ObjId :=
  let declarativeContext := h.castDeclarativeContext context
  if declarativeContext.isNone then
    match h.castAbstractDeclarativeObject context with
    | some declarativeObject => h.castDeclarativeContext (h.object declarativeObject)
    | none => declarativeContext
  else declarativeContext

/-- Model of `DeclarativeView::setDeclarativeRootContext`. With `assertions` false (a build that
defines `QT_NO_DEBUG`) the `Q_ASSERT` line is compiled out and its condition is not evaluated. -/
def DeclarativeView.setDeclarativeRootContext (assertions : Bool) (h : Heap)
    (self : DeclarativeView) (context : Option ObjId) : Except Fault RootResult :=
  match resolveRootContext h context with
  | none => do
    let object ← deref context
    .ok { state := self, emitted := [], log := [.cannotSetRootContext (h.className object)] }
  | some wrapper =>
    if some wrapper = self.m_rootContext then
      .ok { state := self, emitted := [], log := [] }
    else do
      if assertions then
        let root ← deref self.m_rootContext
        if h.context wrapper ≠ h.context root then
          throw Fault.assertionFailed
      .ok { state := { m_rootContext := some wrapper },
            emitted := [.declarativeRootContextChanged], log := [] }

/-- A heap with two context wrappers 20 and 21 around the native context 100, a context wrapper
22 around the native context 101, a wrapper object 30 whose wrapped object is 21, and a plain
object 40. -/
def contextHeap : Heap :=
  { isQAction := fun _ => false
    isDeclarativeAction := fun _ => false
    isAbstractDeclarativeObject := fun o => o = 30
    isQAbstractButton := fun _ => false
    isDeclarativeContext := fun o => o = 20 || o = 21 || o = 22
    object := fun o => if o = 30 then some 21 else none
    context := fun o => if o = 20 ∨ o = 21 then some 100 else if o = 22 then some 101 else none
    className := fun o => if o = 40 then "QTimer" else "QObject" }

/-! ## TextEdit -/

/-- Fields of `TextEdit`: the document of the underlying `QTextEdit` (`document()`, never null)
and the live connections from a document's `modificationChanged(bool)` to the edit's
`modifiedChanged()`, one entry per connection. -/
structure TextEdit where
  document : ObjId
  connections : List ObjId
  deriving DecidableEq

/-- Signals of `TextEdit`. -/
inductive TextSignal where
  | documentChanged
  | modifiedChanged
  deriving DecidableEq

/-- Model of `TextEdit::TextEdit`: `document` is the document the new `QTextEdit` owns. -/
def TextEdit.new (document : ObjId) : TextEdit :=
  { document := document, connections := [document] }

/-- Model of `TextEdit::modified`; `isModified` gives each document's modification flag. -/
def TextEdit.modified (isModified : ObjId → Bool) (self : TextEdit) : Bool :=
  isModified self.document

/-- Model of `TextEdit::setTextDocument`; a null `document` is `none`. `disconnect` drops every
matching connection, `connect` adds one, `QTextEdit::setDocument` replaces the document. -/
def TextEdit.setTextDocument (isModified : ObjId → Bool) (self : TextEdit)
    (document : Option ObjId) : TextEdit × List TextSignal :=
  match document with
  | none => (self, [])
  | some doc =>
    if self.document = doc then (self, [])
    else
      let disconnected := self.connections.filter (fun d => d ≠ self.document)
      let oldModified := self.modified isModified
      let self1 : TextEdit := { document := doc, connections := disconnected ++ [doc] }
      (self1, TextSignal.documentChanged ::
        (if oldModified ≠ self1.modified isModified then [TextSignal.modifiedChanged] else []))

/-- Signal delivery: what the edit emits when `doc` emits `modificationChanged(bool)`, one
`modifiedChanged` per live connection from `doc`. -/
def TextEdit.onModificationChanged (self : TextEdit) (doc : ObjId) : List TextSignal :=
  List.replicate (self.connections.count doc) TextSignal.modifiedChanged

/-! ## Lemmas on the action list of a widget -/

theorem filter_ne_of_not_mem (a : ObjId) (l : List ObjId) (h : a ∉ l) :
    l.filter (fun x => x ≠ a) = l := by
  apply List.filter_eq_self.mpr
  intro x hx
  have hne : x ≠ a := fun e => h (e ▸ hx)
  simpa using hne

theorem insertAction_actions (l : List ObjId) (before : Option ObjId) (a : ObjId) :
    ((⟨l⟩ : QWidget).insertAction before (some a)).actions
      = insertBefore before a (l.filter (fun x => x ≠ a)) := by
  by_cases h : a ∈ l
  · simp [QWidget.insertAction, QWidget.removeAction, h]
  · rw [filter_ne_of_not_mem a l h]
    simp [QWidget.insertAction, h]

theorem insertBefore_split (p a : ObjId) (pre post : List ObjId) (hp : p ∉ pre) :
    insertBefore (some p) a (pre ++ p :: post) = pre ++ a :: p :: post := by
  induction pre with
  | nil => simp [insertBefore]
  | cons x xs ih =>
    have hx : x ≠ p := fun e => hp (by simp [e])
    have hxs : p ∉ xs := fun e => hp (by simp [e])
    simp [insertBefore, hx, ih hxs]

theorem replacePlaceholder_split (p a : ObjId) (pre post : List ObjId) (hap : a ≠ p)
    (hp : p ∉ pre) (ha : a ∉ pre) :
    (replacePlaceholder p (some a) ⟨pre ++ p :: post⟩).actions
      = pre ++ a :: post.filter (fun x => x ≠ p ∧ x ≠ a) := by
  have hpa : p ≠ a := fun e => hap e.symm
  unfold replacePlaceholder
  have h1 : ((⟨pre ++ p :: post⟩ : QWidget).insertAction (some p) (some a))
      = ⟨pre ++ a :: p :: post.filter (fun x => x ≠ a)⟩ := by
    have := insertAction_actions (pre ++ p :: post) (some p) a
    rw [List.filter_append, filter_ne_of_not_mem a pre ha, List.filter_cons] at this
    simp only [ne_eq, hpa, not_false_eq_true, decide_True, if_true] at this
    rw [insertBefore_split p a pre _ hp] at this
    cases hw : (⟨pre ++ p :: post⟩ : QWidget).insertAction (some p) (some a) with
    | mk acts => rw [hw] at this; simp at this; simp [this]
  rw [h1]
  simp only [QWidget.removeAction]
  rw [List.filter_append, filter_ne_of_not_mem p pre hp]
  simp [List.filter_cons, hap, List.filter_filter]

theorem setAction_step_assigned (h : Heap) (s : ActionItem) (ws : List QWidget) (v : QVariant)
    (hs : s.m_qAction ≠ some s.m_placeholderAction) :
    s.setAction h ws v =
      { item := { s with m_action := v }, widgets := ws,
        emitted := if s.m_action = v then [] else [ActionSignal.actionChanged] } := by
  unfold ActionItem.setAction
  by_cases hv : s.m_action = v
  · cases s; simp_all
  · simp [hv, hs]

theorem setActions_assigned (h : Heap) (ws : List QWidget) (vs : List QVariant) :
    ∀ s : ActionItem, s.m_qAction ≠ some s.m_placeholderAction →
      s.setActions h ws vs =
        { item := { s with m_action := vs.getLast?.getD s.m_action }, widgets := ws,
          emitted := List.replicate (differingCalls s.m_action vs) ActionSignal.actionChanged } := by
  induction vs with
  | nil => intro s _; simp [ActionItem.setActions, differingCalls]
  | cons v vs ih =>
    intro s hs
    have hstep := setAction_step_assigned h s ws v hs
    have hs1 : ({ s with m_action := v } : ActionItem).m_qAction
        ≠ some ({ s with m_action := v } : ActionItem).m_placeholderAction := hs
    have hrec := ih { s with m_action := v } hs1
    simp only [ActionItem.setActions, hstep, hrec, differingCalls]
    have hlast : (v :: vs).getLast?.getD s.m_action = vs.getLast?.getD v := by
      cases vs with
      | nil => simp
      | cons w ws2 =>
        rw [List.getLast?_cons_cons, List.getLast?_eq_getLast _ (List.cons_ne_nil w ws2)]
        rfl
    rw [hlast]
    by_cases hv : s.m_action = v
    · simp [hv]
    · simp [hv, List.replicate_succ, Nat.add_comm]

/-! ## ActionItem: theorems -/

/-- C2, as stated, fails: after a first `setAction` assigned the real action 5, a second
`setAction` with a differing value that resolves to the action 6 emits `actionChanged` once but
leaves `action()` at 5. -/
theorem setAction_after_assignment_keeps_old_action :
    let first := (ActionItem.new 1).setAction actionHeap [] (.object (some 5))
    let second := first.item.setAction actionHeap first.widgets (.object (some 6))
    first.item.action = some 5 ∧
    QVariant.object (some 6) ≠ first.item.qmlAction ∧
    resolveAction actionHeap (.object (some 6)) = some 6 ∧
    second.emitted = [ActionSignal.actionChanged] ∧
    second.item.action = some 5 ∧
    second.item.action ≠ some 6 := by
  decide

/-- C2, amended: for every item and every value `v` that differs from the stored value and
resolves to an action `A`, `setAction(v)` emits `actionChanged` exactly once and stores `v`
(`qmlAction()` returns it); `action()` is `A` afterwards when the item was still showing its
placeholder before the call, and otherwise keeps the value it had before the call. -/
theorem setAction_records_action_while_placeholder (h : Heap) (s : ActionItem)
    (ws : List QWidget) (v : QVariant) (A : ObjId)
    (hv : v ≠ s.m_action) (hA : resolveAction h v = some A) :
    (s.setAction h ws v).emitted = [ActionSignal.actionChanged] ∧
    (s.setAction h ws v).item.qmlAction = v ∧
    (s.action = some s.m_placeholderAction → (s.setAction h ws v).item.action = some A) ∧
    (s.action ≠ some s.m_placeholderAction → (s.setAction h ws v).item.action = s.action) := by
  have hv2 : ¬ s.m_action = v := fun e => hv e.symm
  by_cases hp : s.m_qAction = some s.m_placeholderAction
  · simp [ActionItem.setAction, ActionItem.action, ActionItem.qmlAction, hv2, hp, hA]
  · simp [ActionItem.setAction, ActionItem.action, ActionItem.qmlAction, hv2, hp]

/-- Witness of `setAction_records_action_while_placeholder`: a fresh item with placeholder 1 is
given the `DeclarativeAction` 7, which wraps the action 6. -/
theorem setAction_records_action_while_placeholder_witness :
    ((ActionItem.new 1).setAction actionHeap [] (.object (some 7))).emitted
        = [ActionSignal.actionChanged] ∧
    ((ActionItem.new 1).setAction actionHeap [] (.object (some 7))).item.action = some 6 :=
  have t := setAction_records_action_while_placeholder actionHeap (ActionItem.new 1) []
    (.object (some 7)) 6 (by decide) (by decide)
  ⟨t.1, t.2.2.1 rfl⟩

/-- C3, as stated, fails in two ways. (1) The value resolves to the placeholder itself (a
non-null action): both widgets lose the placeholder, so the action is in neither list.
(2) The widget already has the action 6 ahead of the placeholder, which sat at index 1 of
`[6, 1, 3]`: afterwards index 1 holds 3, the action 6 is at index 0. -/
theorem setAction_placeholder_position_fails :
    (resolveAction actionHeap (.object (some 1)) = some 1 ∧
      (((ActionItem.new 1).setAction actionHeap [⟨[1]⟩, ⟨[1]⟩] (.object (some 1))).widgets.map
        QWidget.actions) = [[], []]) ∧
    (resolveAction actionHeap (.object (some 6)) = some 6 ∧
      ([6, 1, 3] : List ObjId)[1]? = some 1 ∧
      (((ActionItem.new 1).setAction actionHeap [⟨[6, 1, 3]⟩] (.object (some 6))).widgets.map
        QWidget.actions) = [[6, 3]] ∧
      ([6, 3] : List ObjId)[1]? ≠ some 6) := by
  decide

/-- C3, amended: for every item still showing its placeholder `P`, every value that differs
from the stored one and resolves to a non-null action `A` other than `P`, and every widget `W`
(the `k`-th widget) whose action list is `pre ++ P :: post` with neither `P` nor `A` in `pre`:
after `setAction` the `k`-th widget has `A` at index `pre.length`, where the placeholder was, no
longer contains the placeholder, and its other actions are those of `W` in the same order. -/
theorem setAction_substitutes_placeholder (h : Heap) (s : ActionItem) (ws : List QWidget)
    (v : QVariant) (A : ObjId) (k : Nat) (pre post : List ObjId)
    (hshow : s.action = some s.m_placeholderAction)
    (hv : v ≠ s.m_action) (hA : resolveAction h v = some A)
    (hAP : A ≠ s.m_placeholderAction)
    (hW : ws[k]? = some ⟨pre ++ s.m_placeholderAction :: post⟩)
    (hpre : s.m_placeholderAction ∉ pre) (hApre : A ∉ pre) :
    ∃ W1 : QWidget, (s.setAction h ws v).widgets[k]? = some W1 ∧
      W1.actions[pre.length]? = some A ∧
      s.m_placeholderAction ∉ W1.actions ∧
      W1.actions.filter (fun x => x ≠ A)
        = (pre ++ s.m_placeholderAction :: post).filter
            (fun x => x ≠ s.m_placeholderAction ∧ x ≠ A) := by
  have hv2 : ¬ s.m_action = v := fun e => hv e.symm
  have hshow2 : s.m_qAction = some s.m_placeholderAction := hshow
  have hsplit := replacePlaceholder_split s.m_placeholderAction A pre post hAP hpre hApre
  refine ⟨replacePlaceholder s.m_placeholderAction (some A)
    ⟨pre ++ s.m_placeholderAction :: post⟩, ?_, ?_, ?_, ?_⟩
  · simp [ActionItem.setAction, hv2, hshow2, hA, hW, QWidget.hasAction]
  · rw [hsplit, List.getElem?_append_right (Nat.le_refl _)]
    simp
  · rw [hsplit]
    simp only [List.mem_append, List.mem_cons, List.mem_filter, not_or]
    refine ⟨hpre, fun e => hAP e.symm, ?_⟩
    rintro ⟨_, hc⟩
    simp at hc
  · rw [hsplit]
    have e1 : pre.filter (fun x => x ≠ A) = pre := filter_ne_of_not_mem A pre hApre
    have e2 : pre.filter (fun x => x ≠ s.m_placeholderAction ∧ x ≠ A) = pre := by
      apply List.filter_eq_self.mpr
      intro x hx
      have h1 : x ≠ s.m_placeholderAction := fun e => hpre (e ▸ hx)
      have h2 : x ≠ A := fun e => hApre (e ▸ hx)
      simp [h1, h2]
    rw [List.filter_append, List.filter_append, e1, e2]
    congr 1
    simp only [List.filter_cons, List.filter_filter]
    simp only [ne_eq, not_true_eq_false, decide_False, Bool.false_eq_true, if_false,
      false_and]
    apply List.filter_congr
    intro x _
    by_cases hx1 : x = A <;> by_cases hx2 : x = s.m_placeholderAction <;> simp [hx1, hx2]

/-- Witness of `setAction_substitutes_placeholder`: the widgets `[W1, W2]` each hold only the
placeholder 1; the value resolves to the action 6; the second widget ends up as `[6]`. -/
theorem setAction_substitutes_placeholder_witness :
    ∃ W1 : QWidget,
      ((ActionItem.new 1).setAction actionHeap [⟨[1]⟩, ⟨[1]⟩] (.object (some 6))).widgets[1]?
        = some W1 ∧
      W1.actions[0]? = some 6 ∧
      1 ∉ W1.actions ∧
      W1.actions.filter (fun x => x ≠ 6) = ([1] : List ObjId).filter (fun x => x ≠ 1 ∧ x ≠ 6) :=
  setAction_substitutes_placeholder actionHeap (ActionItem.new 1) [⟨[1]⟩, ⟨[1]⟩]
    (.object (some 6)) 6 1 [] [] rfl (by decide) (by decide) (by decide) rfl (by decide)
    (by decide)

theorem mem_removeButton (l : List ObjId) (b x : ObjId) :
    x ∈ QButtonGroup.removeButton l b ↔ x ∈ l ∧ x ≠ b := by
  simp [QButtonGroup.removeButton]

theorem mem_addButton (l : List ObjId) (b x : ObjId) :
    x ∈ QButtonGroup.addButton l b ↔ x ∈ l ∨ x = b := by
  simp only [QButtonGroup.addButton, List.mem_append, mem_removeButton, List.mem_singleton]
  by_cases hx : x = b <;> simp [hx]

theorem mem_foldl_remove (h : Heap) (vs : List QVariant) :
    ∀ (g : List ObjId) (x : ObjId),
      x ∈ vs.foldl (fun group variant =>
          match resolveButton h variant with
          | some button => QButtonGroup.removeButton group button
          | none => group) g
        ↔ x ∈ g ∧ x ∉ resolvedButtons h vs := by
  induction vs with
  | nil => intro g x; simp [resolvedButtons]
  | cons v vs ih =>
    intro g x
    rw [List.foldl_cons, ih]
    cases hv : resolveButton h v with
    | none => simp [resolvedButtons, List.filterMap_cons, hv]
    | some b =>
      simp only [resolvedButtons, List.filterMap_cons, hv, mem_removeButton, List.mem_cons,
        not_or]
      tauto

theorem mem_foldl_add (h : Heap) (vs : List QVariant) :
    ∀ (g : List ObjId) (x : ObjId),
      x ∈ vs.foldl (fun group variant =>
          match resolveButton h variant with
          | some button => QButtonGroup.addButton group button
          | none => group) g
        ↔ x ∈ g ∨ x ∈ resolvedButtons h vs := by
  induction vs with
  | nil => intro g x; simp [resolvedButtons]
  | cons v vs ih =>
    intro g x
    rw [List.foldl_cons, ih]
    cases hv : resolveButton h v with
    | none => simp [resolvedButtons, List.filterMap_cons, hv]
    | some b =>
      simp only [resolvedButtons, List.filterMap_cons, hv, mem_addButton, List.mem_cons]
      tauto

/-- C4: for every group whose native membership is the set of buttons its stored list resolves
to, and every new list that differs from the stored one, after `setButtons(new)` the native
membership is exactly the set of buttons the entries of `new` resolve to (entries that do not
resolve are skipped), the stored list is `new`, and `buttonsChanged` is emitted exactly once. -/
theorem setButtons_reconciles (h : Heap) (g : ButtonGroup) (new : List QVariant)
    (hmem : ∀ b, b ∈ g.buttonList ↔ b ∈ resolvedButtons h g.m_buttons)
    (hne : new ≠ g.m_buttons) :
    (∀ b, b ∈ (g.setButtons h new).1.buttonList ↔ b ∈ resolvedButtons h new) ∧
    (g.setButtons h new).1.buttons = new ∧
    (g.setButtons h new).2 = [ButtonSignal.buttonsChanged] := by
  have hne2 : ¬ g.m_buttons = new := fun e => hne e.symm
  simp only [ButtonGroup.setButtons, hne2, if_false, ButtonGroup.buttons, and_self, and_true]
  intro b
  rw [mem_foldl_add, mem_foldl_remove, hmem b]
  tauto

/-- Witness of `setButtons_reconciles`: previous list `[B1, B2]` (wrappers 11, 12 of the buttons
1, 2), new list `[B2, B3]` followed by three entries that do not resolve; the membership
becomes exactly the buttons 2 and 3. -/
theorem setButtons_reconciles_witness :
    let g : ButtonGroup := ⟨[1, 2], [.object (some 11), .object (some 12)]⟩
    let new : List QVariant :=
      [.object (some 12), .object (some 13), .object (some 14), .object (some 3), .invalid]
    resolvedButtons buttonHeap new = [2, 3] ∧
    (∀ b, b ∈ (g.setButtons buttonHeap new).1.buttonList ↔ b ∈ resolvedButtons buttonHeap new) ∧
    (g.setButtons buttonHeap new).1.buttons = new ∧
    (g.setButtons buttonHeap new).2 = [ButtonSignal.buttonsChanged] :=
  ⟨by decide, setButtons_reconciles buttonHeap
    ⟨[1, 2], [.object (some 11), .object (some 12)]⟩
    [.object (some 12), .object (some 13), .object (some 14), .object (some 3), .invalid]
    (by simp [resolvedButtons, resolveButton, buttonHeap, QVariant.valueQObject,
      Heap.castAbstractDeclarativeObject, Heap.castQAbstractButton])
    (by decide)⟩

/-! ## View adaptors: theorems -/

theorem selectionModel_ne_fresh (view : QAbstractItemView) (fresh : ObjId) (r : ModelRef)
    (hfresh : ∀ s, view.selectionModel = some s → s.id ≠ fresh) :
    ¬ view.selectionModel = some ⟨fresh, r⟩ :=
  fun e => hfresh ⟨fresh, r⟩ e rfl

/-- C1, as stated, fails: a view with model 3 and selection model 4 is given the model 5, for
which the toolkit creates the selection model 9. Each of the four adaptors emits three
notifications, `selectionModelChanged(9)` twice: once from its own `setSelectionModel`, which
the native call invokes, and once from the body of `setModel`. -/
theorem setModel_emits_three_notifications :
    ColumnView.setModel true 9 ⟨some 3, some ⟨4, .model 3⟩⟩ (some 5)
      = .ok (⟨some 5, some ⟨9, .model 5⟩⟩,
          [ViewSignal.selectionModelChanged (some ⟨9, .model 5⟩), ViewSignal.modelChanged (some 5),
           ViewSignal.selectionModelChanged (some ⟨9, .model 5⟩)]) ∧
    ListView.setModel true 9 ⟨some 3, some ⟨4, .model 3⟩⟩ (some 5)
      = .ok (⟨some 5, some ⟨9, .model 5⟩⟩,
          [ViewSignal.selectionModelChanged (some ⟨9, .model 5⟩), ViewSignal.modelChanged (some 5),
           ViewSignal.selectionModelChanged (some ⟨9, .model 5⟩)]) ∧
    TableView.setModel true 9 ⟨some 3, some ⟨4, .model 3⟩⟩ (some 5)
      = .ok (⟨some 5, some ⟨9, .model 5⟩⟩,
          [ViewSignal.selectionModelChanged (some ⟨9, .model 5⟩), ViewSignal.modelChanged (some 5),
           ViewSignal.selectionModelChanged (some ⟨9, .model 5⟩)]) ∧
    TreeView.setModel true 9 ⟨some 3, some ⟨4, .model 3⟩⟩ (some 5)
      = .ok (⟨some 5, some ⟨9, .model 5⟩⟩,
          [ViewSignal.selectionModelChanged (some ⟨9, .model 5⟩), ViewSignal.modelChanged (some 5),
           ViewSignal.selectionModelChanged (some ⟨9, .model 5⟩)]) := by
  refine ⟨rfl, rfl, rfl, rfl⟩

/-- C1, amended: for each of the four view adaptors, every view state and every model `m` that
differs from the view's current model, `setModel(m)` delegates to the native set-model
operation, after which the view presents `m` with the selection model `s` the toolkit created
for it, and three notifications are emitted in this order: `selectionModelChanged(s)` (by the
adaptor's own `setSelectionModel`, through which the native call installs `s`), then
`modelChanged(m)` once, then `selectionModelChanged(s)` again, `s` being the view's selection
model after the native call. -/
theorem setModel_notification_sequence (assertions : Bool) (fresh : ObjId)
    (view : QAbstractItemView) (m : Option ObjId) (hm : view.model ≠ m)
    (hfresh : ∀ s, view.selectionModel = some s → s.id ≠ fresh) :
    ColumnView.setModel assertions fresh view m
      = .ok (⟨m, some ⟨fresh, ModelRef.presented m⟩⟩,
          [ViewSignal.selectionModelChanged
             (some ⟨fresh, ModelRef.presented m⟩),
           ViewSignal.modelChanged m,
           ViewSignal.selectionModelChanged
             (some ⟨fresh, ModelRef.presented m⟩)]) ∧
    ListView.setModel assertions fresh view m
      = .ok (⟨m, some ⟨fresh, ModelRef.presented m⟩⟩,
          [ViewSignal.selectionModelChanged
             (some ⟨fresh, ModelRef.presented m⟩),
           ViewSignal.modelChanged m,
           ViewSignal.selectionModelChanged
             (some ⟨fresh, ModelRef.presented m⟩)]) ∧
    TableView.setModel assertions fresh view m
      = .ok (⟨m, some ⟨fresh, ModelRef.presented m⟩⟩,
          [ViewSignal.selectionModelChanged
             (some ⟨fresh, ModelRef.presented m⟩),
           ViewSignal.modelChanged m,
           ViewSignal.selectionModelChanged
             (some ⟨fresh, ModelRef.presented m⟩)]) ∧
    TreeView.setModel assertions fresh view m
      = .ok (⟨m, some ⟨fresh, ModelRef.presented m⟩⟩,
          [ViewSignal.selectionModelChanged
             (some ⟨fresh, ModelRef.presented m⟩),
           ViewSignal.modelChanged m,
           ViewSignal.selectionModelChanged
             (some ⟨fresh, ModelRef.presented m⟩)]) := by
  have hne := selectionModel_ne_fresh view fresh (ModelRef.presented m) hfresh
  have hguard : (m.isSome && decide (view.model = m)) = false := by simp [hm]
  refine ⟨?_, ?_, ?_, ?_⟩
  · simp [ColumnView.setModel, ColumnView.setSelectionModel, QAbstractItemView.setModel,
      QAbstractItemView.setSelectionModel, QAbstractItemView.internalModel, hm, hguard, hne,
      deref, bind, Except.bind]
  · simp [ListView.setModel, ListView.setSelectionModel, QAbstractItemView.setModel,
      QAbstractItemView.setSelectionModel, QAbstractItemView.internalModel, hm, hguard, hne,
      deref, bind, Except.bind]
  · simp [TableView.setModel, TableView.setSelectionModel, QAbstractItemView.setModel,
      QAbstractItemView.setSelectionModel, QAbstractItemView.internalModel, hm, hguard, hne,
      deref, bind, Except.bind]
  · simp [TreeView.setModel, TreeView.setSelectionModel, QAbstractItemView.setModel,
      QAbstractItemView.setSelectionModel, QAbstractItemView.internalModel, hm, hguard, hne,
      deref, bind, Except.bind]

/-- Witness of `setModel_notification_sequence`: a view without model and selection model is
given the model 5; the toolkit creates the selection model 9 on it. -/
theorem setModel_notification_sequence_witness :
    ListView.setModel false 9 ⟨none, none⟩ (some 5)
      = .ok (⟨some 5, some ⟨9, .model 5⟩⟩,
          [ViewSignal.selectionModelChanged (some ⟨9, .model 5⟩), ViewSignal.modelChanged (some 5),
           ViewSignal.selectionModelChanged (some ⟨9, .model 5⟩)]) :=
  (setModel_notification_sequence false 9 ⟨none, none⟩ (some 5) (by decide)
    (by intro s hs; cases hs)).2.1

/-! ## TextEdit: theorems -/

/-- C9: `setTextDocument(null)` and `setTextDocument(current document)` change nothing and emit
nothing. For a non-null `d` other than the current document: the current document becomes `d`;
`documentChanged` is emitted exactly once, first; `modifiedChanged` follows it if and only if
the modification flag of the previous document differs from that of `d`; afterwards a
modification change of `d` is forwarded as `modifiedChanged` (exactly once when `d` had no
connection before) and one of the previous document is not forwarded. -/
theorem setTextDocument_swaps_document (isModified : ObjId → Bool) (s : TextEdit) (d : ObjId)
    (hd : d ≠ s.document) :
    s.setTextDocument isModified none = (s, []) ∧
    s.setTextDocument isModified (some s.document) = (s, []) ∧
    (s.setTextDocument isModified (some d)).1.document = d ∧
    (s.setTextDocument isModified (some d)).2
      = TextSignal.documentChanged ::
          (if isModified s.document ≠ isModified d then [TextSignal.modifiedChanged] else []) ∧
    (s.setTextDocument isModified (some d)).2.count TextSignal.documentChanged = 1 ∧
    (TextSignal.modifiedChanged ∈ (s.setTextDocument isModified (some d)).2
      ↔ isModified s.document ≠ isModified d) ∧
    (s.setTextDocument isModified (some d)).1.onModificationChanged d ≠ [] ∧
    (d ∉ s.connections →
      (s.setTextDocument isModified (some d)).1.onModificationChanged d
        = [TextSignal.modifiedChanged]) ∧
    (s.setTextDocument isModified (some d)).1.onModificationChanged s.document = [] := by
  have hd2 : ¬ s.document = d := fun e => hd e.symm
  refine ⟨rfl, by simp [TextEdit.setTextDocument], by simp [TextEdit.setTextDocument, hd2],
    by simp [TextEdit.setTextDocument, hd2, TextEdit.modified], ?_, ?_, ?_, ?_, ?_⟩
  · by_cases hmod : isModified s.document = isModified d <;>
      simp [TextEdit.setTextDocument, hd2, TextEdit.modified, hmod]
  · by_cases hmod : isModified s.document = isModified d <;>
      simp [TextEdit.setTextDocument, hd2, TextEdit.modified, hmod]
  · simp [TextEdit.setTextDocument, hd2, TextEdit.onModificationChanged]
  · intro hnc
    have hc : List.count d (List.filter (fun x => !decide (x = s.document)) s.connections)
        = 0 :=
      List.count_eq_zero.mpr (fun hmem => hnc (List.mem_filter.mp hmem).1)
    simp [TextEdit.setTextDocument, hd2, TextEdit.onModificationChanged, List.count_append, hc]
  · have hc : List.count s.document
        (List.filter (fun x => !decide (x = s.document)) s.connections) = 0 :=
      List.count_eq_zero.mpr (fun hmem => by simpa using (List.mem_filter.mp hmem).2)
    simp [TextEdit.setTextDocument, hd2, TextEdit.onModificationChanged, List.count_append, hc,
      hd2]

/-- Witness of `setTextDocument_swaps_document`: a fresh edit on the unmodified document 1 is
given the modified document 2. -/
theorem setTextDocument_swaps_document_witness :
    (TextEdit.new 1).setTextDocument (fun o => decide (o = 2)) (some 2)
      = ({ document := 2, connections := [2] },
         [TextSignal.documentChanged, TextSignal.modifiedChanged]) ∧
    ((TextEdit.new 1).setTextDocument (fun o => decide (o = 2)) (some 2)).1.onModificationChanged 1
      = [] :=
  ⟨by decide,
   (setTextDocument_swaps_document (fun o => decide (o = 2)) (TextEdit.new 1) 2
      (by decide)).2.2.2.2.2.2.2.2⟩

/-! ## DeclarativeContext: theorems -/

/-- C7: for every context wrapper whose weak reference is null, and all `u`, `n`, `v`:
`setBaseUrl(u)` and `setContextProperty(n, v)` complete, write one warning, leave the state
unchanged and emit nothing; `baseUrl()` completes, writes one warning and returns the empty
URL. None of the three ends in a null dereference. -/
theorem stale_context_operations_warn (s : DeclarativeContext) (u : QUrl) (n : String)
    (v : QVariant) (hstale : s.m_context = none) :
    s.setBaseUrl u
      = .ok { state := s, emitted := [], log := [.contextUnavailable "setBaseUrl"],
              value := () } ∧
    s.baseUrl
      = .ok { state := s, emitted := [], log := [.contextUnavailable "baseUrl"], value := "" } ∧
    s.setContextProperty n v
      = .ok { state := s, emitted := [], log := [.contextUnavailable "setContextProperty"],
              value := () } := by
  simp [DeclarativeContext.setBaseUrl, DeclarativeContext.baseUrl,
    DeclarativeContext.setContextProperty, hstale]

/-- Witness of `stale_context_operations_warn` on the wrapper whose context was destroyed. -/
theorem stale_context_operations_warn_witness :
    (⟨none⟩ : DeclarativeContext).setBaseUrl "file:///ui/"
      = .ok { state := ⟨none⟩, emitted := [], log := [.contextUnavailable "setBaseUrl"],
              value := () } ∧
    (⟨none⟩ : DeclarativeContext).baseUrl
      = .ok { state := ⟨none⟩, emitted := [], log := [.contextUnavailable "baseUrl"],
              value := "" } :=
  have t := stale_context_operations_warn ⟨none⟩ "file:///ui/" "title" (.data 10 1) rfl
  ⟨t.1, t.2.1⟩

/-! ## DeclarativeContextProperty: theorems -/

theorem setOnContext_calls (p : DeclarativeContextProperty) :
    ∃ r, p.setOnContext = .ok r ∧ r.emitted = [] ∧
      r.state.m_name = p.m_name ∧ r.state.m_value = p.m_value ∧
      r.state.m_context.isSome = p.m_context.isSome ∧
      r.calls = if p.pushCondition then [(p.m_name, p.m_value)] else [] := by
  obtain ⟨name, value, ctx⟩ := p
  unfold DeclarativeContextProperty.setOnContext DeclarativeContextProperty.pushCondition
    DeclarativeContextProperty.isValid
  cases ctx with
  | none => simp
  | some c =>
    obtain ⟨native⟩ := c
    rcases Bool.eq_false_or_eq_true name.isEmpty with hn | hn <;>
      rcases Bool.eq_false_or_eq_true value.isValid with hv | hv <;>
      rcases Bool.eq_false_or_eq_true value.isNull with hu | hu <;>
      cases native <;>
      simp [deref, DeclarativeContext.setContextProperty, bind, Except.bind, hn, hv, hu]

/-- C8, as stated, fails. With assertions compiled in, a view whose root wrapper 20 wraps the
native context 100 is given the wrapper 22 of the native context 101: the `Q_ASSERT` fails.
A null argument ends in a null dereference (of the argument, for the diagnostic text), with or
without assertions. -/
theorem setDeclarativeRootContext_fatal_paths :
    DeclarativeView.setDeclarativeRootContext true contextHeap ⟨some 20⟩ (some 22)
      = .error Fault.assertionFailed ∧
    DeclarativeView.setDeclarativeRootContext true contextHeap ⟨some 20⟩ none
      = .error Fault.nullDereference ∧
    DeclarativeView.setDeclarativeRootContext false contextHeap ⟨some 20⟩ none
      = .error Fault.nullDereference := by
  refine ⟨rfl, rfl, rfl⟩

/-- C8, amended: for every non-null argument `c` and every view state. If `c` does not resolve
to a context wrapper, the call completes, writes one diagnostic naming the class of `c`, leaves
the root-context wrapper unchanged and emits nothing. If `c` resolves to the current root
wrapper, the call completes and changes nothing. If `c` resolves to another wrapper `w`: without
assertions, or with assertions when the root wrapper is live and wraps the same native context
as `w`, the root wrapper becomes `w` and `declarativeRootContextChanged` is emitted once; with
assertions, when the live root wrapper wraps another native context, the `Q_ASSERT` fails. -/
theorem setDeclarativeRootContext_outcomes (assertions : Bool) (h : Heap)
    (view : DeclarativeView) (c : ObjId) :
    (resolveRootContext h (some c) = none →
      view.setDeclarativeRootContext assertions h (some c)
        = .ok { state := view, emitted := [],
                log := [.cannotSetRootContext (h.className c)] }) ∧
    (∀ w, resolveRootContext h (some c) = some w →
      (view.m_rootContext = some w →
        view.setDeclarativeRootContext assertions h (some c)
          = .ok { state := view, emitted := [], log := [] }) ∧
      (view.m_rootContext ≠ some w → assertions = false →
        view.setDeclarativeRootContext assertions h (some c)
          = .ok { state := ⟨some w⟩, emitted := [.declarativeRootContextChanged], log := [] }) ∧
      (∀ r, view.m_rootContext = some r → r ≠ w → assertions = true →
        (h.context w = h.context r →
          view.setDeclarativeRootContext assertions h (some c)
            = .ok { state := ⟨some w⟩, emitted := [.declarativeRootContextChanged],
                    log := [] }) ∧
        (h.context w ≠ h.context r →
          view.setDeclarativeRootContext assertions h (some c)
            = .error Fault.assertionFailed))) := by
  refine ⟨?_, ?_⟩
  · intro hres
    simp [DeclarativeView.setDeclarativeRootContext, hres, deref, bind, Except.bind]
  · intro w hres
    refine ⟨?_, ?_, ?_⟩
    · intro hroot
      simp [DeclarativeView.setDeclarativeRootContext, hres, hroot]
    · intro hroot hassert
      have hroot2 : ¬ some w = view.m_rootContext := fun e => hroot e.symm
      simp [DeclarativeView.setDeclarativeRootContext, hres, hroot2, hassert, bind, Except.bind,
        pure, Except.pure]
    · intro r hroot hrw hassert
      have hroot2 : ¬ w = r := fun e => hrw e.symm
      refine ⟨?_, ?_⟩
      · intro hsame
        simp [DeclarativeView.setDeclarativeRootContext, hres, hroot, hroot2, hassert, hsame,
          deref, bind, Except.bind, pure, Except.pure]
      · intro hdiff
        simp [DeclarativeView.setDeclarativeRootContext, hres, hroot, hroot2, hassert, hdiff,
          deref, bind, Except.bind, throw, throwThe, MonadExceptOf.throw]

/-- Witness of `setDeclarativeRootContext_outcomes`: the root wrapper 20 wraps the native context
100; the argument 30 is a wrapper object around the context wrapper 21, which wraps the same
native context; the plain object 40 only yields the diagnostic. -/
theorem setDeclarativeRootContext_outcomes_witness :
    DeclarativeView.setDeclarativeRootContext true contextHeap ⟨some 20⟩ (some 30)
      = .ok { state := ⟨some 21⟩, emitted := [.declarativeRootContextChanged], log := [] } ∧
    DeclarativeView.setDeclarativeRootContext true contextHeap ⟨some 20⟩ (some 40)
      = .ok { state := ⟨some 20⟩, emitted := [], log := [.cannotSetRootContext "QTimer"] } :=
  ⟨(((setDeclarativeRootContext_outcomes true contextHeap ⟨some 20⟩ 30).2 21 rfl).2.2 20 rfl
      (by decide) rfl).1 rfl,
   (setDeclarativeRootContext_outcomes true contextHeap ⟨some 20⟩ 40).1 rfl⟩

/-! ## Repeated setter calls -/

theorem setAction_repeat (h : Heap) (item : ActionItem) (ws : List QWidget) (v : QVariant) :
    (item.setAction h ws v).item.setAction h (item.setAction h ws v).widgets v
      = { item := (item.setAction h ws v).item, widgets := (item.setAction h ws v).widgets,
          emitted := [] } ∧
    (item.setAction h ws v).emitted.length ≤ 1 := by
  have hstored : (item.setAction h ws v).item.m_action = v := by
    unfold ActionItem.setAction
    by_cases hv : item.m_action = v
    · simp [hv]
    · by_cases hp : item.m_qAction = some item.m_placeholderAction <;> simp [hv, hp]
  refine ⟨?_, ?_⟩
  · generalize item.setAction h ws v = r1 at hstored
    simp [ActionItem.setAction, hstored]
  · unfold ActionItem.setAction
    by_cases hv : item.m_action = v
    · simp [hv]
    · by_cases hp : item.m_qAction = some item.m_placeholderAction <;> simp [hv, hp]

theorem setButtons_repeat (h : Heap) (group : ButtonGroup) (v : List QVariant) :
    (group.setButtons h v).1.setButtons h v = ((group.setButtons h v).1, []) ∧
    (group.setButtons h v).2.length ≤ 1 := by
  have hstored : (group.setButtons h v).1.m_buttons = v := by
    unfold ButtonGroup.setButtons
    by_cases hv : group.m_buttons = v <;> simp [hv]
  refine ⟨?_, ?_⟩
  · generalize group.setButtons h v = r1 at hstored
    simp [ButtonGroup.setButtons, hstored]
  · unfold ButtonGroup.setButtons
    by_cases hv : group.m_buttons = v <;> simp [hv]

theorem setBaseUrl_repeat (ctx : DeclarativeContext) (u : QUrl)
    (hbase : u ≠ "" ∨ ∀ n, ctx.m_context = some n → n.parentBaseUrl = "") :
    ∃ r1 r2, ctx.setBaseUrl u = .ok r1 ∧ r1.state.setBaseUrl u = .ok r2 ∧
      r2.state = r1.state ∧ r2.emitted = [] ∧ r1.emitted.length ≤ 1 := by
  obtain ⟨native⟩ := ctx
  cases native with
  | none => simp [DeclarativeContext.setBaseUrl]
  | some n =>
    by_cases hu : u = n.baseUrl
    · simp [DeclarativeContext.setBaseUrl, deref, bind, Except.bind, hu]
    · have hstored : u = (n.setBaseUrl u).baseUrl := by
        by_cases he : u = ""
        · have hp : n.parentBaseUrl = "" := by
            rcases hbase with h1 | h2
            · exact absurd he h1
            · exact h2 n rfl
          simp [QDeclarativeContext.setBaseUrl, QDeclarativeContext.baseUrl, he, hp]
        · simp [QDeclarativeContext.setBaseUrl, QDeclarativeContext.baseUrl, he]
      refine ⟨{ state := ⟨some (n.setBaseUrl u)⟩, emitted := [.baseUrlChanged u],
                log := [], value := () },
              { state := ⟨some (n.setBaseUrl u)⟩, emitted := [], log := [], value := () },
              ?_, ?_, rfl, rfl, by simp⟩
      · simp [DeclarativeContext.setBaseUrl, deref, bind, Except.bind, hu]
      · simp only [DeclarativeContext.setBaseUrl, Option.isNone_some, Bool.false_eq_true,
          if_false, deref, bind, Except.bind]
        rw [if_pos hstored]

theorem ColumnView_setModel_repeat (assertions : Bool) (fresh1 fresh2 : ObjId)
    (view : QAbstractItemView) (m : Option ObjId) :
    ∃ r1, ColumnView.setModel assertions fresh1 view m = .ok r1 ∧
      ColumnView.setModel assertions fresh2 r1.1 m = .ok (r1.1, []) ∧
      r1.2.count (ViewSignal.modelChanged m) ≤ 1 := by
  by_cases hm : view.model = m
  · exact ⟨(view, []), by simp [ColumnView.setModel, hm], by simp [ColumnView.setModel, hm],
      by simp⟩
  · have hguard : (m.isSome && decide (view.model = m)) = false := by simp [hm]
    by_cases hs : view.selectionModel
        = some ⟨fresh1, ModelRef.presented m⟩
    · refine ⟨(⟨m, view.selectionModel⟩, [ViewSignal.modelChanged m,
        ViewSignal.selectionModelChanged view.selectionModel]), ?_, ?_, ?_⟩
      · simp [ColumnView.setModel, ColumnView.setSelectionModel, QAbstractItemView.setModel,
          QAbstractItemView.internalModel, hm, hguard, hs, bind, Except.bind]
      · simp [ColumnView.setModel]
      · simp [List.count_cons]
    · refine ⟨(⟨m, some ⟨fresh1, ModelRef.presented m⟩⟩,
        [ViewSignal.selectionModelChanged
           (some ⟨fresh1, ModelRef.presented m⟩),
         ViewSignal.modelChanged m,
         ViewSignal.selectionModelChanged
           (some ⟨fresh1, ModelRef.presented m⟩)]),
        ?_, ?_, ?_⟩
      · simp [ColumnView.setModel, ColumnView.setSelectionModel, QAbstractItemView.setModel,
          QAbstractItemView.setSelectionModel, QAbstractItemView.internalModel, hm, hguard, hs,
          deref, bind, Except.bind]
      · simp [ColumnView.setModel]
      · simp [List.count_cons]

theorem ColumnView_setSelectionModel_repeat (assertions : Bool) (view : QAbstractItemView)
    (sel : Option QItemSelectionModel)
    (hacc : ∀ s, sel = some s → s.model = view.internalModel)
    (r1 : QAbstractItemView × List ViewSignal)
    (hfirst : ColumnView.setSelectionModel assertions view sel = .ok r1) :
    ColumnView.setSelectionModel assertions r1.1 sel = .ok (r1.1, []) ∧ r1.2.length ≤ 1 := by
  by_cases hs : view.selectionModel = sel
  · simp [ColumnView.setSelectionModel, hs] at hfirst
    subst hfirst
    simp [ColumnView.setSelectionModel, hs]
  · cases sel with
    | none =>
      cases assertions <;>
        simp [ColumnView.setSelectionModel, QAbstractItemView.setSelectionModel, hs, deref, bind,
          Except.bind] at hfirst
    | some s0 =>
      have hmodel := hacc s0 rfl
      simp [ColumnView.setSelectionModel, QAbstractItemView.setSelectionModel, hs, hmodel, deref,
        bind, Except.bind] at hfirst
      subst hfirst
      simp [ColumnView.setSelectionModel]

theorem ListView_setModel_repeat (assertions : Bool) (fresh1 fresh2 : ObjId)
    (view : QAbstractItemView) (m : Option ObjId) :
    ∃ r1, ListView.setModel assertions fresh1 view m = .ok r1 ∧
      ListView.setModel assertions fresh2 r1.1 m = .ok (r1.1, []) ∧
      r1.2.count (ViewSignal.modelChanged m) ≤ 1 := by
  by_cases hm : view.model = m
  · exact ⟨(view, []), by simp [ListView.setModel, hm], by simp [ListView.setModel, hm],
      by simp⟩
  · have hguard : (m.isSome && decide (view.model = m)) = false := by simp [hm]
    by_cases hs : view.selectionModel
        = some ⟨fresh1, ModelRef.presented m⟩
    · refine ⟨(⟨m, view.selectionModel⟩, [ViewSignal.modelChanged m,
        ViewSignal.selectionModelChanged view.selectionModel]), ?_, ?_, ?_⟩
      · simp [ListView.setModel, ListView.setSelectionModel, QAbstractItemView.setModel,
          QAbstractItemView.internalModel, hm, hguard, hs, bind, Except.bind]
      · simp [ListView.setModel]
      · simp [List.count_cons]
    · refine ⟨(⟨m, some ⟨fresh1, ModelRef.presented m⟩⟩,
        [ViewSignal.selectionModelChanged
           (some ⟨fresh1, ModelRef.presented m⟩),
         ViewSignal.modelChanged m,
         ViewSignal.selectionModelChanged
           (some ⟨fresh1, ModelRef.presented m⟩)]),
        ?_, ?_, ?_⟩
      · simp [ListView.setModel, ListView.setSelectionModel, QAbstractItemView.setModel,
          QAbstractItemView.setSelectionModel, QAbstractItemView.internalModel, hm, hguard, hs,
          deref, bind, Except.bind]
      · simp [ListView.setModel]
      · simp [List.count_cons]

theorem ListView_setSelectionModel_repeat (assertions : Bool) (view : QAbstractItemView)
    (sel : Option QItemSelectionModel)
    (hacc : ∀ s, sel = some s → s.model = view.internalModel)
    (r1 : QAbstractItemView × List ViewSignal)
    (hfirst : ListView.setSelectionModel assertions view sel = .ok r1) :
    ListView.setSelectionModel assertions r1.1 sel = .ok (r1.1, []) ∧ r1.2.length ≤ 1 := by
  by_cases hs : view.selectionModel = sel
  · simp [ListView.setSelectionModel, hs] at hfirst
    subst hfirst
    simp [ListView.setSelectionModel, hs]
  · cases sel with
    | none =>
      cases assertions <;>
        simp [ListView.setSelectionModel, QAbstractItemView.setSelectionModel, hs, deref, bind,
          Except.bind] at hfirst
    | some s0 =>
      have hmodel := hacc s0 rfl
      simp [ListView.setSelectionModel, QAbstractItemView.setSelectionModel, hs, hmodel, deref,
        bind, Except.bind] at hfirst
      subst hfirst
      simp [ListView.setSelectionModel]

theorem TableView_setModel_repeat (assertions : Bool) (fresh1 fresh2 : ObjId)
    (view : QAbstractItemView) (m : Option ObjId) :
    ∃ r1, TableView.setModel assertions fresh1 view m = .ok r1 ∧
      TableView.setModel assertions fresh2 r1.1 m = .ok (r1.1, []) ∧
      r1.2.count (ViewSignal.modelChanged m) ≤ 1 := by
  by_cases hm : view.model = m
  · exact ⟨(view, []), by simp [TableView.setModel, hm], by simp [TableView.setModel, hm],
      by simp⟩
  · have hguard : (m.isSome && decide (view.model = m)) = false := by simp [hm]
    by_cases hs : view.selectionModel
        = some ⟨fresh1, ModelRef.presented m⟩
    · refine ⟨(⟨m, view.selectionModel⟩, [ViewSignal.modelChanged m,
        ViewSignal.selectionModelChanged view.selectionModel]), ?_, ?_, ?_⟩
      · simp [TableView.setModel, TableView.setSelectionModel, QAbstractItemView.setModel,
          QAbstractItemView.internalModel, hm, hguard, hs, bind, Except.bind]
      · simp [TableView.setModel]
      · simp [List.count_cons]
    · refine ⟨(⟨m, some ⟨fresh1, ModelRef.presented m⟩⟩,
        [ViewSignal.selectionModelChanged
           (some ⟨fresh1, ModelRef.presented m⟩),
         ViewSignal.modelChanged m,
         ViewSignal.selectionModelChanged
           (some ⟨fresh1, ModelRef.presented m⟩)]),
        ?_, ?_, ?_⟩
      · simp [TableView.setModel, TableView.setSelectionModel, QAbstractItemView.setModel,
          QAbstractItemView.setSelectionModel, QAbstractItemView.internalModel, hm, hguard, hs,
          deref, bind, Except.bind]
      · simp [TableView.setModel]
      · simp [List.count_cons]

theorem TableView_setSelectionModel_repeat (assertions : Bool) (view : QAbstractItemView)
    (sel : Option QItemSelectionModel)
    (hacc : ∀ s, sel = some s → s.model = view.internalModel)
    (r1 : QAbstractItemView × List ViewSignal)
    (hfirst : TableView.setSelectionModel assertions view sel = .ok r1) :
    TableView.setSelectionModel assertions r1.1 sel = .ok (r1.1, []) ∧ r1.2.length ≤ 1 := by
  by_cases hs : view.selectionModel = sel
  · simp [TableView.setSelectionModel, hs] at hfirst
    subst hfirst
    simp [TableView.setSelectionModel, hs]
  · cases sel with
    | none =>
      cases assertions <;>
        simp [TableView.setSelectionModel, QAbstractItemView.setSelectionModel, hs, deref, bind,
          Except.bind] at hfirst
    | some s0 =>
      have hmodel := hacc s0 rfl
      simp [TableView.setSelectionModel, QAbstractItemView.setSelectionModel, hs, hmodel, deref,
        bind, Except.bind] at hfirst
      subst hfirst
      simp [TableView.setSelectionModel]

theorem TreeView_setModel_repeat (assertions : Bool) (fresh1 fresh2 : ObjId)
    (view : QAbstractItemView) (m : Option ObjId) :
    ∃ r1, TreeView.setModel assertions fresh1 view m = .ok r1 ∧
      TreeView.setModel assertions fresh2 r1.1 m = .ok (r1.1, []) ∧
      r1.2.count (ViewSignal.modelChanged m) ≤ 1 := by
  by_cases hm : view.model = m
  · exact ⟨(view, []), by simp [TreeView.setModel, hm], by simp [TreeView.setModel, hm],
      by simp⟩
  · have hguard : (m.isSome && decide (view.model = m)) = false := by simp [hm]
    by_cases hs : view.selectionModel
        = some ⟨fresh1, ModelRef.presented m⟩
    · refine ⟨(⟨m, view.selectionModel⟩, [ViewSignal.modelChanged m,
        ViewSignal.selectionModelChanged view.selectionModel]), ?_, ?_, ?_⟩
      · simp [TreeView.setModel, TreeView.setSelectionModel, QAbstractItemView.setModel,
          QAbstractItemView.internalModel, hm, hguard, hs, bind, Except.bind]
      · simp [TreeView.setModel]
      · simp [List.count_cons]
    · refine ⟨(⟨m, some ⟨fresh1, ModelRef.presented m⟩⟩,
        [ViewSignal.selectionModelChanged
           (some ⟨fresh1, ModelRef.presented m⟩),
         ViewSignal.modelChanged m,
         ViewSignal.selectionModelChanged
           (some ⟨fresh1, ModelRef.presented m⟩)]),
        ?_, ?_, ?_⟩
      · simp [TreeView.setModel, TreeView.setSelectionModel, QAbstractItemView.setModel,
          QAbstractItemView.setSelectionModel, QAbstractItemView.internalModel, hm, hguard, hs,
          deref, bind, Except.bind]
      · simp [TreeView.setModel]
      · simp [List.count_cons]

theorem TreeView_setSelectionModel_repeat (assertions : Bool) (view : QAbstractItemView)
    (sel : Option QItemSelectionModel)
    (hacc : ∀ s, sel = some s → s.model = view.internalModel)
    (r1 : QAbstractItemView × List ViewSignal)
    (hfirst : TreeView.setSelectionModel assertions view sel = .ok r1) :
    TreeView.setSelectionModel assertions r1.1 sel = .ok (r1.1, []) ∧ r1.2.length ≤ 1 := by
  by_cases hs : view.selectionModel = sel
  · simp [TreeView.setSelectionModel, hs] at hfirst
    subst hfirst
    simp [TreeView.setSelectionModel, hs]
  · cases sel with
    | none =>
      cases assertions <;>
        simp [TreeView.setSelectionModel, QAbstractItemView.setSelectionModel, hs, deref, bind,
          Except.bind] at hfirst
    | some s0 =>
      have hmodel := hacc s0 rfl
      simp [TreeView.setSelectionModel, QAbstractItemView.setSelectionModel, hs, hmodel, deref,
        bind, Except.bind] at hfirst
      subst hfirst
      simp [TreeView.setSelectionModel]

theorem setName_repeat (p : DeclarativeContextProperty) (n : String) :
    ∃ r1, p.setName n = .ok r1 ∧
      r1.state.setName n = .ok { state := r1.state, emitted := [], calls := [], log := [] } ∧
      r1.emitted.length ≤ 1 := by
  by_cases hn : n = p.m_name
  · refine ⟨{ state := p, emitted := [], calls := [], log := [] }, ?_, ?_, ?_⟩ <;>
      simp [DeclarativeContextProperty.setName, hn]
  · obtain ⟨r, hr, hem, hname, _, _, _⟩ :=
      setOnContext_calls ({ p with m_name := n } : DeclarativeContextProperty)
    refine ⟨{ r with emitted := PropertySignal.nameChanged n :: r.emitted }, ?_, ?_, ?_⟩
    · simp [DeclarativeContextProperty.setName, hn, hr, bind, Except.bind]
    · have hname2 : r.state.m_name = n := hname
      simp [DeclarativeContextProperty.setName, hname2]
    · simp [hem]

theorem setValue_repeat (p : DeclarativeContextProperty) (v : QVariant) :
    ∃ r1, p.setValue v = .ok r1 ∧
      r1.state.setValue v = .ok { state := r1.state, emitted := [], calls := [], log := [] } ∧
      r1.emitted.length ≤ 1 := by
  by_cases hv : v = p.m_value
  · refine ⟨{ state := p, emitted := [], calls := [], log := [] }, ?_, ?_, ?_⟩ <;>
      simp [DeclarativeContextProperty.setValue, hv]
  · obtain ⟨r, hr, hem, _, hvalue, _, _⟩ :=
      setOnContext_calls ({ p with m_value := v } : DeclarativeContextProperty)
    refine ⟨{ r with emitted := PropertySignal.valueChanged v :: r.emitted }, ?_, ?_, ?_⟩
    · simp [DeclarativeContextProperty.setValue, hv, hr, bind, Except.bind]
    · have hvalue2 : r.state.m_value = v := hvalue
      simp [DeclarativeContextProperty.setValue, hvalue2]
    · simp [hem]

theorem setTextDocument_repeat (isModified : ObjId → Bool) (edit : TextEdit)
    (d : Option ObjId) :
    (edit.setTextDocument isModified d).1.setTextDocument isModified d
      = ((edit.setTextDocument isModified d).1, []) ∧
    (edit.setTextDocument isModified d).2.Nodup := by
  cases d with
  | none => simp [TextEdit.setTextDocument]
  | some doc =>
    by_cases hd : edit.document = doc
    · simp [TextEdit.setTextDocument, hd]
    · by_cases hmod : isModified edit.document = isModified doc <;>
        simp [TextEdit.setTextDocument, hd, TextEdit.modified, hmod]

theorem setDeclarativeRootContext_repeat (assertions : Bool) (h : Heap)
    (view : DeclarativeView) (c : Option ObjId) (r1 : RootResult)
    (hfirst : view.setDeclarativeRootContext assertions h c = .ok r1) :
    ∃ r2, r1.state.setDeclarativeRootContext assertions h c = .ok r2 ∧
      r2.state = r1.state ∧ r2.emitted = [] ∧ r1.emitted.length ≤ 1 := by
  unfold DeclarativeView.setDeclarativeRootContext at hfirst ⊢
  cases hres : resolveRootContext h c with
  | none =>
    rw [hres] at hfirst
    cases c with
    | none => simp [deref, bind, Except.bind] at hfirst
    | some o =>
      simp [deref, bind, Except.bind] at hfirst
      subst hfirst
      simp [deref, bind, Except.bind]
  | some w =>
    rw [hres] at hfirst
    by_cases hroot : some w = view.m_rootContext
    · simp [hroot] at hfirst
      subst hfirst
      simp [hroot]
    · have hstate : r1.state = ⟨some w⟩ ∧ r1.emitted = [.declarativeRootContextChanged] := by
        simp only [hroot, if_false] at hfirst
        cases assertions with
        | false =>
          simp [bind, Except.bind, pure, Except.pure] at hfirst
          subst hfirst
          simp
        | true =>
          cases hr : view.m_rootContext with
          | none => simp [hr, deref, bind, Except.bind] at hfirst
          | some r =>
            by_cases hctx : h.context w = h.context r
            · simp [hr, hctx, deref, bind, Except.bind, pure, Except.pure] at hfirst
              subst hfirst
              simp
            · simp [hr, hctx, deref, bind, Except.bind, throw, throwThe,
                MonadExceptOf.throw] at hfirst
      simp [hstate.1, hstate.2]

end DeclarativeWidgets
